import Mathlib

/-!
Shallow embedding of the Paper_summarizer pipelines (`resumes.py` and
`resume_ocr_gpu.py`) and proofs about them.

Python strings are modelled as `List Char`; Python string indices as `Nat`.
External services (the OCR engine, the Ollama LLM service) are modelled as
oracle functions returning `Except Unit (List Char)`: `Except.error ()` stands
for a raised exception (timeout, malformed response, connection failure),
`Except.ok s` for a successful reply with content `s`.  The `while` loop of
`chunk_text` is embedded with a fuel parameter: `none` means the fuel ran out,
so `∀ fuel, ... = none` expresses non-termination of the source loop.
-/

namespace PaperSummarizer

/-- ASCII whitespace as recognised by Python's `str.strip()`. -/
def isSpace (c : Char) : Bool :=
  c = ' ' || c = '\t' || c = '\n' || c = '\r' || c = '\x0b' || c = '\x0c'

/-- Python `s.strip()`: remove leading and trailing whitespace. -/
def strip (s : List Char) : List Char :=
  ((s.dropWhile isSpace).reverse.dropWhile isSpace).reverse

/-- The separator `"\n\n"` used throughout both pipelines. -/
def newline2 : List Char := ['\n', '\n']

/-- The non-whitespace content of a string, in order.  Two strings equal
up to whitespace-trim differences at split points (and up to removed
`"\n\n"` separators) have the same `removeWs` image. -/
def removeWs (s : List Char) : List Char := s.filter (fun c => !isSpace c)

/-- Python `sep.join(xs)`. -/
def joinSep (sep : List Char) : List (List Char) → List Char
  | [] => []
  | [x] => x
  | x :: y :: xs => x ++ sep ++ joinSep sep (y :: xs)

/-- Does the substring `"\n\n"` occur in `text` at position `i`? -/
def isParaBreakAt (text : List Char) (i : Nat) : Bool :=
  match text.drop i with
  | '\n' :: '\n' :: _ => true
  | _ => false

/-- Downward scan used to embed Python `rfind`: the highest position
`i ∈ [start, start + n]` with `"\n\n"` at `i`, if any. -/
def rfindDown (text : List Char) (start : Nat) : Nat → Option Nat
  | 0 => if isParaBreakAt text start then some start else none
  | n + 1 =>
      if isParaBreakAt text (start + (n + 1)) then some (start + (n + 1))
      else rfindDown text start n

/-- Python `text.rfind("\n\n", start, stop)`: the highest `i` with
`start ≤ i`, `i + 2 ≤ stop` and `"\n\n"` at `i`; `none` for Python's `-1`.
(The occurrence must lie inside the slice, hence the `stop - 2` bound; the
clamp of `stop` to `len(text)` is implicit in `isParaBreakAt`.) -/
def rfindPara (text : List Char) (start stop : Nat) : Option Nat :=
  if stop < start + 2 then none else rfindDown text start (stop - 2 - start)

/-- One iteration's cut point in `chunk_text`: `end = start + max_chars`,
moved back to the last paragraph break in the window when `end` falls
strictly before the end of the text and such a break exists. -/
def chunkEnd (text : List Char) (maxChars start : Nat) : Nat :=
  let e := start + maxChars
  if e < text.length then
    match rfindPara text start e with
    | some split => split
    | none => e
  else e

/-- The `while start < length` loop of `chunk_text` (identical in
`resumes.py` and `resume_ocr_gpu.py`), with fuel.  Each iteration slices
`text[start:end]`, strips it, appends it if non-empty, and sets
`start := end`. -/
def chunkTextLoop (text : List Char) (maxChars : Nat) : Nat → Nat → Option (List (List Char))
  | 0, _ => none
  | fuel + 1, start =>
      if start < text.length then
        let e := chunkEnd text maxChars start
        let chunk := strip ((text.drop start).take (e - start))
        match chunkTextLoop text maxChars fuel e with
        | none => none
        | some rest => some (if chunk = [] then rest else chunk :: rest)
      else some []

/-- `chunk_text(text, max_chars)` from both source files, with fuel;
`none` means the loop did not finish within `fuel` iterations. -/
def chunk_text (text : List Char) (maxChars fuel : Nat) : Option (List (List Char)) :=
  chunkTextLoop text maxChars fuel 0

/-- `get_ideal_chunk_size` from `resumes.py`.  `cudaAvailable` is
`torch.cuda.is_available()`, `totalMemBytes` is `props.total_memory`.  The
float computation `int((bytes / 1024**3) * 80000)` is modelled as the exact
rational truncated toward zero, i.e. `bytes * 80000 / 2 ^ 30` in `Nat`. -/
def get_ideal_chunk_size (cudaAvailable : Bool) (totalMemBytes : Nat) (default : Nat) : Nat :=
  if cudaAvailable then
    max 1024 (min (totalMemBytes * 80000 / 2 ^ 30) (default * 120))
  else default

/-- One PDF page: its native (embedded) text as returned by
`page.get_text()`, and the outcome of the OCR engine on its 300 DPI
rasterisation, were OCR to be invoked (`Except.error ()` = the engine
raises; `Except.ok t` = it returns text `t` before stripping). -/
structure Page where
  native : List Char
  ocr : Except Unit (List Char)

/-- Per-page text resolution in `resume_ocr_gpu.py`'s
`extract_text_from_pdf`: prefer stripped native text; otherwise OCR, whose
exceptions are caught (`results = []`, hence empty text). -/
def resolvePageGpu (p : Page) : List Char :=
  match strip p.native with
  | [] =>
      match p.ocr with
      | .error _ => []
      | .ok t => strip t
  | c :: cs => c :: cs

/-- Per-page text resolution in `resumes.py`'s `extract_text_from_pdf`:
prefer stripped native text; otherwise OCR, whose exceptions are NOT
caught there and propagate. -/
def resolvePageResumes (p : Page) : Except Unit (List Char) :=
  match strip p.native with
  | [] =>
      match p.ocr with
      | .error e => .error e
      | .ok t => .ok (strip t)
  | c :: cs => .ok (c :: cs)

/-- The `full_text` list built by `resume_ocr_gpu.py`: each page's resolved
text, skipping pages that resolve to empty (logged, not appended). -/
def pageTextsGpu : List Page → List (List Char)
  | [] => []
  | p :: ps =>
      match resolvePageGpu p with
      | [] => pageTextsGpu ps
      | c :: cs => (c :: cs) :: pageTextsGpu ps

/-- `extract_text_from_pdf` of `resume_ocr_gpu.py`:
`"\n\n".join(full_text)`. -/
def extract_text_from_pdf_gpu (pages : List Page) : List Char :=
  joinSep newline2 (pageTextsGpu pages)

/-- The `full_text` list built by `resumes.py`: pages processed in order,
an uncaught OCR exception aborting the whole extraction. -/
def pageTextsResumes : List Page → Except Unit (List (List Char))
  | [] => .ok []
  | p :: ps =>
      match resolvePageResumes p with
      | .error e => .error e
      | .ok [] => pageTextsResumes ps
      | .ok (c :: cs) =>
          match pageTextsResumes ps with
          | .error e => .error e
          | .ok rest => .ok ((c :: cs) :: rest)

/-- `extract_text_from_pdf` of `resumes.py`: `"\n\n".join(full_text)`,
with OCR exceptions propagating. -/
def extract_text_from_pdf_resumes (pages : List Page) : Except Unit (List Char) :=
  match pageTextsResumes pages with
  | .error e => .error e
  | .ok ts => .ok (joinSep newline2 ts)

/-- User-prompt text prepended to the chunk in `resume_ocr_gpu.py`'s
`summarize_chunk`. -/
def gpuSummHead : List Char :=
  ("Você é um assistente útil. Por favor, forneça um resumo conciso em língua portuguesa, seguindo a norma culta da gramática brasileira, do seguinte texto:\n\n").toList

/-- User-prompt text prepended to the chunk in `resumes.py`'s
`summarize_chunk`. -/
def resumesSummHead : List Char :=
  ("Você é um assistente que resume textos científicos. Forneça um resumo em português culto, valorizando as ideias principais do trecho abaixo:\n\n").toList

/-- `summarize_chunk` of `resume_ocr_gpu.py`: the LLM call is inside
`try/except`, a service error yields `""`; on success the reply content is
stripped.  `svc` maps the user-message content to the service outcome. -/
def summarize_chunk_gpu (svc : List Char → Except Unit (List Char)) (chunk : List Char) :
    List Char :=
  match svc (gpuSummHead ++ chunk) with
  | .error _ => []
  | .ok content => strip content

/-- `summarize_chunk` of `resumes.py`: no `try/except`, a service error
propagates; on success the reply content is stripped. -/
def summarize_chunk_resumes (svc : List Char → Except Unit (List Char)) (chunk : List Char) :
    Except Unit (List Char) :=
  match svc (resumesSummHead ++ chunk) with
  | .error e => .error e
  | .ok content => .ok (strip content)

/-- The `joined` text of `resume_ocr_gpu.py`'s `synthesize_summaries`:
`"\n\n".join(f"- {s}" for s in summaries if s)` — empty summaries are
filtered out, the rest are bulleted in order. -/
def gpuJoined (summaries : List (List Char)) : List Char :=
  joinSep newline2 ((summaries.filter (fun s => !s.isEmpty)).map (fun s => '-' :: ' ' :: s))

/-- Synthesis-prompt text prepended to the joined summaries in
`resume_ocr_gpu.py`'s `synthesize_summaries`. -/
def gpuSynthHead : List Char :=
  ("Você é um especialista em síntese. Com base nos resumos a seguir, produza um único resumo coeso e estruturado, em língua portuguesa conforme a norma culta da gramática brasileira, no formato Markdown:\n\n").toList

/-- `synthesize_summaries` of `resume_ocr_gpu.py`: LLM call in
`try/except`, a service error yields `""`. -/
def synthesize_summaries_gpu (svc : List Char → Except Unit (List Char))
    (summaries : List (List Char)) : List Char :=
  match svc (gpuSynthHead ++ gpuJoined summaries) with
  | .error _ => []
  | .ok content => strip content

/-- The `joined` text of `resumes.py`'s `synthesize_summaries_single`:
`"\n\n".join(summaries)` — no filtering of empty summaries. -/
def singleJoined (summaries : List (List Char)) : List Char :=
  joinSep newline2 summaries

/-- Synthesis-prompt text prepended to the joined summaries in
`resumes.py`'s `synthesize_summaries_single`. -/
def singleSynthHead : List Char :=
  ("Você é um assistente especializado em resumos científicos. Com base nas ideias abaixo, produza um resumo coeso em texto corrido, em língua portuguesa culta, sintetizando as principais contribuições do artigo:\n\n").toList

/-- `synthesize_summaries_single` of `resumes.py`: no `try/except`, a
service error propagates. -/
def synthesize_summaries_single (svc : List Char → Except Unit (List Char))
    (summaries : List (List Char)) : Except Unit (List Char) :=
  match svc (singleSynthHead ++ singleJoined summaries) with
  | .error e => .error e
  | .ok content => .ok (strip content)

/-- `main` of `resume_ocr_gpu.py` up to the file write: returns `none` when
no write happens because extraction was empty or the chunking loop did not
terminate within `fuel`, and `some content` when `content` is written to
the output file (the write is unconditional once chunking is done, even
for empty `content`). -/
def main_gpu (fuel : Nat) (pages : List Page)
    (summSvc synthSvc : List Char → Except Unit (List Char)) : Option (List Char) :=
  let text := extract_text_from_pdf_gpu pages
  if text = [] then none
  else
    match chunk_text text 4000 fuel with
    | none => none
    | some chunks =>
        some (synthesize_summaries_gpu synthSvc (chunks.map (summarize_chunk_gpu summSvc)))

/-- The file-selection test of `resumes.py`'s `process_papers`:
`fname.lower().endswith('.pdf')` (ASCII lowering). -/
def selectsPdf (fname : List Char) : Bool :=
  ['.', 'p', 'd', 'f'].isSuffixOf (fname.map Char.toLower)

/-- The title-key derivation of `resumes.py`'s `process_papers`:
`fname.replace('.pdf', '')` — every occurrence of the exact lowercase
substring `".pdf"` is removed, left to right. -/
def replacePdf : List Char → List Char
  | '.' :: 'p' :: 'd' :: 'f' :: rest => replacePdf rest
  | c :: cs => c :: replacePdf cs
  | [] => []

/-- The per-chunk summarization loop of `process_papers`
(`article_parts.append(summarize_chunk(...))` in order, errors
propagating). -/
def mapSummaries (svc : List Char → Except Unit (List Char)) :
    List (List Char) → Except Unit (List (List Char))
  | [] => .ok []
  | c :: cs =>
      match summarize_chunk_resumes svc c with
      | .error e => .error e
      | .ok s =>
          match mapSummaries svc cs with
          | .error e => .error e
          | .ok rest => .ok (s :: rest)

/-- `process_papers` of `resumes.py` over an already-sorted directory
listing (the source iterates `sorted(os.listdir(directory))`), each file
paired with its pages.  `maxChars` stands for the `get_ideal_chunk_size()`
value used when `chunk_text` is called with `max_chars = None`.  Outer
`none` = the chunking loop ran out of fuel; inner `Except` = an uncaught
exception (OCR or LLM).  Returns the `summaries` dict as an insertion-order
association list. -/
def process_papers (fuel maxChars : Nat)
    (summSvc synthSvc : List Char → Except Unit (List Char)) :
    List (List Char × List Page) → Option (Except Unit (List (List Char × List Char)))
  | [] => some (.ok [])
  | (fname, pages) :: rest =>
      if selectsPdf fname then
        match extract_text_from_pdf_resumes pages with
        | .error e => some (.error e)
        | .ok [] => process_papers fuel maxChars summSvc synthSvc rest
        | .ok (c :: cs) =>
            match chunk_text (c :: cs) maxChars fuel with
            | none => none
            | some chunks =>
                match mapSummaries summSvc chunks with
                | .error e => some (.error e)
                | .ok parts =>
                    match synthesize_summaries_single synthSvc parts with
                    | .error e => some (.error e)
                    | .ok syn =>
                        match process_papers fuel maxChars summSvc synthSvc rest with
                        | none => none
                        | some (.error e) => some (.error e)
                        | some (.ok acc) => some (.ok ((replacePdf fname, syn) :: acc))
      else process_papers fuel maxChars summSvc synthSvc rest

/-! ## Helper lemmas -/

theorem length_strip_le (s : List Char) : (strip s).length ≤ s.length := by
  unfold strip
  rw [List.length_reverse]
  calc ((s.dropWhile isSpace).reverse.dropWhile isSpace).length
      ≤ (s.dropWhile isSpace).reverse.length := (List.dropWhile_sublist _).length_le
    _ = (s.dropWhile isSpace).length := List.length_reverse _
    _ ≤ s.length := (List.dropWhile_sublist _).length_le

theorem rfindDown_bounds (text : List Char) (start : Nat) :
    ∀ n i, rfindDown text start n = some i → start ≤ i ∧ i ≤ start + n := by
  intro n
  induction n with
  | zero =>
      intro i h
      simp only [rfindDown] at h
      split at h
      · cases h; omega
      · cases h
  | succ n ih =>
      intro i h
      simp only [rfindDown] at h
      split at h
      · cases h; omega
      · have := ih i h; omega

theorem chunkEnd_bounds (text : List Char) (m start : Nat) :
    start ≤ chunkEnd text m start ∧ chunkEnd text m start ≤ start + m := by
  unfold chunkEnd
  simp only
  by_cases hl : start + m < text.length
  · rw [if_pos hl]
    cases h : rfindPara text start (start + m) with
    | none => simp only [h]; omega
    | some i =>
        simp only [h]
        unfold rfindPara at h
        split at h
        · cases h
        · have hb := rfindDown_bounds text start _ i h
          omega
  · rw [if_neg hl]; omega

/-- Every chunk appended by the loop has length at most `maxChars`. -/
theorem chunkTextLoop_length_le (text : List Char) (m : Nat) :
    ∀ fuel start chunks, chunkTextLoop text m fuel start = some chunks →
      ∀ c ∈ chunks, c.length ≤ m := by
  intro fuel
  induction fuel with
  | zero => intro start chunks h; cases h
  | succ fuel ih =>
      intro start chunks h c hc
      simp only [chunkTextLoop] at h
      split at h
      · cases hrec : chunkTextLoop text m fuel (chunkEnd text m start) with
        | none => rw [hrec] at h; cases h
        | some rest =>
            rw [hrec] at h
            injection h with h
            subst h
            by_cases he : strip ((text.drop start).take (chunkEnd text m start - start)) = []
            · rw [if_pos he] at hc
              exact ih _ rest hrec c hc
            · rw [if_neg he] at hc
              rcases List.mem_cons.mp hc with rfl | hc
              · have h1 := length_strip_le ((text.drop start).take (chunkEnd text m start - start))
                have h2 := chunkEnd_bounds text m start
                have h3 := List.length_take (chunkEnd text m start - start) (text.drop start)
                omega
              · exact ih _ rest hrec c hc
      · injection h with h
        subst h
        cases hc

theorem removeWs_append (s t : List Char) :
    removeWs (s ++ t) = removeWs s ++ removeWs t :=
  List.filter_append _ _

theorem removeWs_dropWhile (s : List Char) :
    removeWs (s.dropWhile isSpace) = removeWs s := by
  induction s with
  | nil => rfl
  | cons a l ih =>
      by_cases ha : isSpace a
      · rw [List.dropWhile_cons_of_pos ha, ih]
        simp [removeWs, List.filter_cons, ha]
      · rw [List.dropWhile_cons_of_neg ha]

theorem removeWs_reverse (s : List Char) :
    removeWs s.reverse = (removeWs s).reverse :=
  List.filter_reverse _ _

theorem removeWs_strip (s : List Char) : removeWs (strip s) = removeWs s := by
  unfold strip
  rw [removeWs_reverse, removeWs_dropWhile, removeWs_reverse, List.reverse_reverse,
    removeWs_dropWhile]

theorem removeWs_drop_split (text : List Char) (start e : Nat) (h : start ≤ e) :
    removeWs (text.drop start) =
      removeWs ((text.drop start).take (e - start)) ++ removeWs (text.drop e) := by
  conv_lhs => rw [← List.take_append_drop (e - start) (text.drop start)]
  rw [removeWs_append, List.drop_drop, Nat.add_sub_cancel' h]

/-- Whenever the loop returns, the concatenation of the produced chunks
has exactly the non-whitespace content of the unconsumed part of the
text, in order. -/
theorem chunkTextLoop_reconstruct (text : List Char) (m : Nat) :
    ∀ fuel start chunks, chunkTextLoop text m fuel start = some chunks →
      removeWs chunks.flatten = removeWs (text.drop start) := by
  intro fuel
  induction fuel with
  | zero => intro start chunks h; cases h
  | succ fuel ih =>
      intro start chunks h
      simp only [chunkTextLoop] at h
      split at h
      · cases hrec : chunkTextLoop text m fuel (chunkEnd text m start) with
        | none => rw [hrec] at h; cases h
        | some rest =>
            rw [hrec] at h
            injection h with h
            subst h
            have hse : start ≤ chunkEnd text m start := (chunkEnd_bounds text m start).1
            have hsplit := removeWs_drop_split text start (chunkEnd text m start) hse
            have hrest := ih _ rest hrec
            by_cases he : strip ((text.drop start).take (chunkEnd text m start - start)) = []
            · have hws : removeWs ((text.drop start).take (chunkEnd text m start - start)) = [] := by
                rw [← removeWs_strip, he]; rfl
              rw [if_pos he, hrest, hsplit, hws, List.nil_append]
            · rw [if_neg he]
              simp only [List.flatten_cons]
              rw [removeWs_append, removeWs_strip, hrest, hsplit]
      · rename_i hs
        injection h with h
        subst h
        rw [List.drop_eq_nil_of_le (by omega)]
        rfl

/-- The loop never advances on the failing input `"\n\na"` with budget 2:
the window starts with `"\n\n"`, `rfind` returns `start` itself, the cut
point equals `start`, the chunk is empty, and the state repeats. -/
theorem chunkTextLoop_stuck : ∀ fuel, chunkTextLoop ('\n' :: '\n' :: 'a' :: []) 2 fuel 0 = none := by
  intro fuel
  induction fuel with
  | zero => rfl
  | succ n ih =>
      simp only [chunkTextLoop]
      rw [if_pos (by decide)]
      rw [show chunkEnd ('\n' :: '\n' :: 'a' :: []) 2 0 = 0 from by decide]
      simp only [ih]

/-! ## Claims -/

/-- C1 (code_bug): the claim states that the chunking loop of `chunk_text`
terminates for every text and every `max_chars > 0`.  The code violates
this: on the text `"\n\na"` with budget 2, the loop never terminates (for
every fuel the embedded loop fails to finish), because after the `rfind`
cut the start offset stops advancing.  This theorem evaluates the code at
the failing input. -/
theorem claim_C1_chunk_text_diverges :
    ∀ fuel, chunk_text ('\n' :: '\n' :: 'a' :: []) 2 fuel = none :=
  fun fuel => chunkTextLoop_stuck fuel

/-- C2 (confirmed): whenever `chunk_text text m` returns a list of chunks,
every chunk has length at most `m`; even a single over-long paragraph is
cut exactly at the budget boundary and never re-expanded beyond `m`. -/
theorem claim_C2_chunk_length_le (text : List Char) (m fuel : Nat)
    (chunks : List (List Char)) (_hm : 0 < m)
    (h : chunk_text text m fuel = some chunks) :
    ∀ c ∈ chunks, c.length ≤ m :=
  chunkTextLoop_length_le text m fuel 0 chunks h

/-- Witness for C2 at a concrete input. -/
theorem claim_C2_chunk_length_le_witness :
    List.length ['h', 'i'] ≤ 5 :=
  claim_C2_chunk_length_le ('h' :: 'i' :: []) 5 2 [['h', 'i']] (by decide) (by decide)
    ['h', 'i'] (by decide)

/-- C3 (confirmed): whenever `chunk_text text m` returns a list of chunks,
their in-order concatenation carries exactly the non-whitespace content of
`text`: no non-whitespace character is lost or duplicated, and chunk order
matches position order (the only differences with `text` are the removed
`"\n\n"` separators and whitespace trimmed at split points). -/
theorem claim_C3_reconstruction (text : List Char) (m fuel : Nat)
    (chunks : List (List Char)) (_hm : 0 < m)
    (h : chunk_text text m fuel = some chunks) :
    removeWs chunks.flatten = removeWs text := by
  have hr := chunkTextLoop_reconstruct text m fuel 0 chunks h
  simpa using hr

/-- Witness for C3 at a concrete input with a trimmed split point. -/
theorem claim_C3_reconstruction_witness :
    removeWs (List.flatten [['a'], ['b']]) = removeWs (' ' :: 'a' :: '\n' :: '\n' :: 'b' :: []) :=
  claim_C3_reconstruction (' ' :: 'a' :: '\n' :: '\n' :: 'b' :: []) 3 3 [['a'], ['b']]
    (by decide) (by decide)

/-- C4 (confirmed): `get_ideal_chunk_size` returns the default with no
accelerator; with an accelerator reporting `g` whole gigabytes
(`g * 2^30` bytes) it returns `g * 80000` clamped to
`[1024, default * 120]`; and the result is monotone non-decreasing in the
reported memory. -/
theorem claim_C4_get_ideal_chunk_size :
    (∀ bytes d, get_ideal_chunk_size false bytes d = d) ∧
    (∀ g d, get_ideal_chunk_size true (g * 2 ^ 30) d =
      max 1024 (min (g * 80000) (d * 120))) ∧
    (∀ d b1 b2, b1 ≤ b2 →
      get_ideal_chunk_size true b1 d ≤ get_ideal_chunk_size true b2 d) := by
  have e1 : ∀ b d, get_ideal_chunk_size true b d =
      max 1024 (min (b * 80000 / 2 ^ 30) (d * 120)) := fun b d => rfl
  refine ⟨fun bytes d => rfl, fun g d => ?_, fun d b1 b2 hb => ?_⟩
  · rw [e1, show g * 2 ^ 30 * 80000 = g * 80000 * 2 ^ 30 from by ring,
      Nat.mul_div_cancel _ (by norm_num)]
  · rw [e1, e1]
    exact max_le_max (le_refl _)
      (min_le_min (Nat.div_le_div_right (Nat.mul_le_mul_right _ hb)) (le_refl _))

/-- Witness for C4's monotonicity at a concrete input. -/
theorem claim_C4_get_ideal_chunk_size_witness :
    get_ideal_chunk_size true (2 ^ 30) 4000 ≤ get_ideal_chunk_size true (2 ^ 31) 4000 :=
  claim_C4_get_ideal_chunk_size.2.2 4000 (2 ^ 30) (2 ^ 31) (by decide)

theorem resolvePageGpu_native (p : Page) (h : strip p.native ≠ []) :
    resolvePageGpu p = strip p.native := by
  unfold resolvePageGpu
  cases hs : strip p.native with
  | nil => exact absurd hs h
  | cons c cs => rfl

theorem resolvePageResumes_native (p : Page) (h : strip p.native ≠ []) :
    resolvePageResumes p = .ok (strip p.native) := by
  unfold resolvePageResumes
  cases hs : strip p.native with
  | nil => exact absurd hs h
  | cons c cs => rfl

theorem pageTextsGpu_all_native (pages : List Page)
    (h : ∀ p ∈ pages, strip p.native ≠ []) :
    pageTextsGpu pages = pages.map fun p => strip p.native := by
  induction pages with
  | nil => rfl
  | cons p ps ih =>
      have hp := h p (List.mem_cons_self p ps)
      simp only [pageTextsGpu, List.map_cons, resolvePageGpu_native p hp]
      cases hs : strip p.native with
      | nil => exact absurd hs hp
      | cons c cs =>
          simp only [hs]
          exact congrArg _ (ih fun q hq => h q (List.mem_cons_of_mem _ hq))

theorem pageTextsResumes_all_native (pages : List Page)
    (h : ∀ p ∈ pages, strip p.native ≠ []) :
    pageTextsResumes pages = .ok (pages.map fun p => strip p.native) := by
  induction pages with
  | nil => rfl
  | cons p ps ih =>
      have hp := h p (List.mem_cons_self p ps)
      simp only [pageTextsResumes, List.map_cons, resolvePageResumes_native p hp]
      cases hs : strip p.native with
      | nil => exact absurd hs hp
      | cons c cs =>
          simp only [hs, ih fun q hq => h q (List.mem_cons_of_mem _ hq)]

/-- C5 (confirmed): when every page has non-empty trimmed native text,
extraction (in both pipelines) uses exactly those trimmed native texts; the
pages' `ocr` outcomes — the whole behaviour of the OCR engine — do not
appear in the result, so the OCR path never influences such a page. -/
theorem claim_C5_native_text_preferred (pages : List Page)
    (h : ∀ p ∈ pages, strip p.native ≠ []) :
    extract_text_from_pdf_gpu pages =
      joinSep newline2 (pages.map fun p => strip p.native) ∧
    extract_text_from_pdf_resumes pages =
      .ok (joinSep newline2 (pages.map fun p => strip p.native)) := by
  constructor
  · unfold extract_text_from_pdf_gpu
    rw [pageTextsGpu_all_native pages h]
  · unfold extract_text_from_pdf_resumes
    rw [pageTextsResumes_all_native pages h]

/-- Witness for C5: a page with native text `"h"` and a raising OCR engine
contributes its native text; the OCR outcome is never consulted. -/
theorem claim_C5_native_text_preferred_witness :
    extract_text_from_pdf_gpu [Page.mk ['h'] (Except.error ())] =
      joinSep newline2 ([Page.mk ['h'] (Except.error ())].map fun p => strip p.native) ∧
    extract_text_from_pdf_resumes [Page.mk ['h'] (Except.error ())] =
      .ok (joinSep newline2 ([Page.mk ['h'] (Except.error ())].map fun p => strip p.native)) :=
  claim_C5_native_text_preferred [Page.mk ['h'] (Except.error ())] (by decide)

/-- C6 (corrected) — counterexample: in `resumes.py`, `summarize_chunk`
has no `try/except`; a service error propagates instead of yielding the
empty string, refuting the claim for that pipeline. -/
theorem claim_C6_counterexample :
    summarize_chunk_resumes (fun _ => Except.error ()) ['x'] = Except.error () := rfl

/-- C6 (corrected, amended): in `resume_ocr_gpu.py`, `summarize_chunk`
catches any service error and returns the empty string; in `resumes.py` it
propagates the error. -/
theorem claim_C6_amended (svc : List Char → Except Unit (List Char)) (chunk : List Char)
    (hg : svc (gpuSummHead ++ chunk) = Except.error ())
    (hr : svc (resumesSummHead ++ chunk) = Except.error ()) :
    summarize_chunk_gpu svc chunk = [] ∧
    summarize_chunk_resumes svc chunk = Except.error () := by
  constructor
  · unfold summarize_chunk_gpu
    rw [hg]
  · unfold summarize_chunk_resumes
    rw [hr]

/-- Witness for C6's amended statement with an always-failing service. -/
theorem claim_C6_amended_witness :
    summarize_chunk_gpu (fun _ => Except.error ()) ['x'] = [] ∧
    summarize_chunk_resumes (fun _ => Except.error ()) ['x'] = Except.error () :=
  claim_C6_amended (fun _ => Except.error ()) ['x'] rfl rfl

theorem pageTextsGpu_append (l1 l2 : List Page) :
    pageTextsGpu (l1 ++ l2) = pageTextsGpu l1 ++ pageTextsGpu l2 := by
  induction l1 with
  | nil => rfl
  | cons p ps ih =>
      simp only [List.cons_append, pageTextsGpu]
      cases hr : resolvePageGpu p with
      | nil => exact ih
      | cons c cs => exact congrArg _ ih

/-- C7 (corrected) — counterexample: in `resumes.py`, the OCR call of
`extract_text_from_pdf` is not wrapped in `try/except`; a page with no
native text whose OCR raises aborts the whole extraction. -/
theorem claim_C7_counterexample :
    extract_text_from_pdf_resumes [Page.mk [] (Except.error ())] = Except.error () := rfl

/-- C7 (corrected, amended): in `resume_ocr_gpu.py`, an OCR exception on a
page with no native text is caught and the page is treated as yielding no
text — extraction continues over the remaining pages exactly as if the
page were absent.  In `resumes.py`, the exception propagates. -/
theorem claim_C7_amended (ps1 ps2 : List Page) (n : List Char) (e : Unit)
    (h : strip n = []) :
    extract_text_from_pdf_gpu (ps1 ++ Page.mk n (Except.error e) :: ps2) =
      extract_text_from_pdf_gpu (ps1 ++ ps2) := by
  unfold extract_text_from_pdf_gpu
  rw [pageTextsGpu_append, pageTextsGpu_append]
  have hres : resolvePageGpu (Page.mk n (Except.error e)) = [] := by
    simp [resolvePageGpu, h]
  simp only [pageTextsGpu, hres]

/-- Witness for C7's amended statement at a concrete document. -/
theorem claim_C7_amended_witness :
    extract_text_from_pdf_gpu ([] ++ Page.mk [] (Except.error ()) :: [Page.mk ['h'] (Except.ok [])]) =
      extract_text_from_pdf_gpu ([] ++ [Page.mk ['h'] (Except.ok [])]) :=
  claim_C7_amended [] [Page.mk ['h'] (Except.ok [])] [] () rfl

/-- C8 (corrected) — counterexample: in `resumes.py`,
`synthesize_summaries_single` joins summaries without filtering, so its
joined text is not the join of only the non-empty summaries: with
summaries `["", "a"]` it is `"\n\na"`, not `"a"`. -/
theorem claim_C8_counterexample :
    singleJoined [[], ['a']] ≠
      joinSep newline2 (([[], ['a']] : List (List Char)).filter fun s => !s.isEmpty) := by
  decide

/-- C8 (corrected, amended): in `resume_ocr_gpu.py`'s
`synthesize_summaries`, empty summaries are filtered out before the join
(in original order, so the synthesis result is invariant under removing
them beforehand); in `resumes.py`'s `synthesize_summaries_single`, all
summaries are joined with no filtering. -/
theorem claim_C8_amended :
    (∀ svc summaries, synthesize_summaries_gpu svc summaries =
      synthesize_summaries_gpu svc (summaries.filter fun s => !s.isEmpty)) ∧
    singleJoined [[], ['a']] = '\n' :: '\n' :: 'a' :: [] := by
  refine ⟨fun svc summaries => ?_, rfl⟩
  have hj : gpuJoined summaries = gpuJoined (summaries.filter fun s => !s.isEmpty) := by
    simp [gpuJoined, List.filter_filter]
  simp only [synthesize_summaries_gpu]
  rw [hj]

/-- C9 (confirmed): in the single-document pipeline (`resume_ocr_gpu.py`),
whenever extraction yields non-empty text and the chunking loop finishes,
`main` writes the final synthesis to the output file — whatever that
synthesis is, including the empty string produced under total LLM
failure. -/
theorem claim_C9_main_writes (fuel : Nat) (pages : List Page)
    (summSvc synthSvc : List Char → Except Unit (List Char))
    (chunks : List (List Char))
    (hne : extract_text_from_pdf_gpu pages ≠ [])
    (hch : chunk_text (extract_text_from_pdf_gpu pages) 4000 fuel = some chunks) :
    main_gpu fuel pages summSvc synthSvc =
      some (synthesize_summaries_gpu synthSvc (chunks.map (summarize_chunk_gpu summSvc))) := by
  simp only [main_gpu]
  rw [if_neg hne, hch]

/-- Witness for C9: with every LLM call failing, `main` still writes —
an empty output file (`some []`), not a suppressed write (`none`). -/
theorem claim_C9_main_writes_witness :
    main_gpu 2 [Page.mk ('h' :: 'i' :: []) (Except.ok [])]
      (fun _ => Except.error ()) (fun _ => Except.error ()) = some [] := by
  have h := claim_C9_main_writes 2 [Page.mk ('h' :: 'i' :: []) (Except.ok [])]
    (fun _ => Except.error ()) (fun _ => Except.error ()) [['h', 'i']]
    (by decide) (by decide)
  exact h.trans (by rfl)

/-- C10 (confirmed): `process_papers` selects files whose name ends in
`".pdf"` case-insensitively, but derives the title key by removing every
occurrence of the exact lowercase substring `".pdf"`: `"X.PDF"` is
processed yet keyed `"X.PDF"` unchanged, an interior `".pdf"` is lost from
the key (`"a.pdfb.pdf"` ↦ `"ab"`), and a non-PDF name is not selected. -/
theorem claim_C10_selection_and_keys :
    selectsPdf ('X' :: '.' :: 'P' :: 'D' :: 'F' :: []) = true ∧
    replacePdf ('X' :: '.' :: 'P' :: 'D' :: 'F' :: []) =
      'X' :: '.' :: 'P' :: 'D' :: 'F' :: [] ∧
    replacePdf ('a' :: '.' :: 'p' :: 'd' :: 'f' :: 'b' :: '.' :: 'p' :: 'd' :: 'f' :: []) =
      'a' :: 'b' :: [] ∧
    selectsPdf ('n' :: '.' :: 't' :: 'x' :: 't' :: []) = false ∧
    process_papers 2 10 (fun _ => Except.ok ['s']) (fun _ => Except.ok ['s'])
        [(('X' :: '.' :: 'P' :: 'D' :: 'F' :: []),
          [Page.mk ('h' :: 'i' :: []) (Except.ok [])]),
         (('n' :: '.' :: 't' :: 'x' :: 't' :: []),
          [Page.mk ('h' :: 'i' :: []) (Except.ok [])])] =
      some (Except.ok [(('X' :: '.' :: 'P' :: 'D' :: 'F' :: []), ['s'])]) := by
  refine ⟨rfl, rfl, rfl, rfl, ?_⟩
  rfl

end PaperSummarizer
